import Mathlib

/-!
Verification of the karrio repository fragment: the Dicom carrier connection
settings (`purplship/providers/dicom/utils.py`), the fedex provider package
descriptor (`extensions/fedex/setup.py`), and the GraphQL order extension
(`purplship/server/graph/extension/orders/__init__.py`).
-/

namespace Karrio

namespace Dicom

/-- Alphabet of standard Base64 (RFC 4648 §4), as used by Python's
`base64.b64encode`. -/
def b64Chars : List Char :=
  ['A', 'B', 'C', 'D', 'E', 'F', 'G', 'H', 'I', 'J', 'K', 'L', 'M',
   'N', 'O', 'P', 'Q', 'R', 'S', 'T', 'U', 'V', 'W', 'X', 'Y', 'Z',
   'a', 'b', 'c', 'd', 'e', 'f', 'g', 'h', 'i', 'j', 'k', 'l', 'm',
   'n', 'o', 'p', 'q', 'r', 's', 't', 'u', 'v', 'w', 'x', 'y', 'z',
   '0', '1', '2', '3', '4', '5', '6', '7', '8', '9', '+', '/']

/-- Digit of the standard Base64 alphabet (defined for digits below 64). -/
def b64Char (n : Nat) : Char := b64Chars.getD n '='

/-- Modelled from the Python standard library `base64.b64encode` (standard
Base64 with padding, RFC 4648 §4): bytes are taken three at a time, split into
four six-bit digits; a final group of one or two bytes is padded with `=`. -/
def b64encode : List Nat → List Char
  | [] => []
  | [a] => [b64Char (a / 4), b64Char (a % 4 * 16), '=', '=']
  | [a, b] => [b64Char (a / 4), b64Char (a % 4 * 16 + b / 16), b64Char (b % 16 * 4), '=']
  | a :: b :: c :: rest =>
    b64Char (a / 4) :: b64Char (a % 4 * 16 + b / 16) :: b64Char (b % 16 * 4 + c / 64) ::
      b64Char (c % 64) :: b64encode rest

/-- Standard UTF-8 encoding of one Unicode scalar value given as a natural
number, as a list of bytes. -/
def utf8EncodeNat (n : Nat) : List Nat :=
  if n < 128 then [n]
  else if n < 2048 then [192 + n / 64, 128 + n % 64]
  else if n < 65536 then [224 + n / 4096, 128 + n / 64 % 64, 128 + n % 64]
  else [240 + n / 262144, 128 + n / 4096 % 64, 128 + n / 64 % 64, 128 + n % 64]

/-- Modelled from Python `str.encode("utf-8")` for a single character: the
standard UTF-8 encoding of one Unicode scalar value, as a list of bytes. -/
def utf8EncodeChar (c : Char) : List Nat :=
  utf8EncodeNat c.toNat

/-- UTF-8 encoding of a character list. -/
def utf8Encode : List Char → List Nat
  | [] => []
  | c :: cs => utf8EncodeChar c ++ utf8Encode cs

/-- UTF-8 bytes of a string (Python `s.encode("utf-8")`). -/
def utf8Bytes (s : String) : List Nat := utf8Encode s.data

/-- Dicom connection settings, from `purplship/providers/dicom/utils.py`:
`username` and `password` are required, `billing_account` and `id` default to
absent; the `test` flag is inherited from the base settings type (modelled
from the spec: the external base configuration type provides a boolean `test`
flag, presumed default false/production). -/
structure Settings where
  username : String
  password : String
  billing_account : Option String := none
  id : Option String := none
  test : Bool := false
deriving DecidableEq

/-- Source: `Settings.carrier_name` returns the literal "dicom". -/
def Settings.carrier_name (_ : Settings) : String := "dicom"

/-- Source: `Settings.server_url` selects the sandbox or production
Canada-Post gateway depending on the `test` flag. -/
def Settings.server_url (s : Settings) : String :=
  if s.test then "https://ct.soa-gw.canadapost.ca" else "https://soa-gw.canadapost.ca"

/-- Source: `Settings.authorization` builds `"%s:%s" % (username, password)`,
UTF-8 encodes it and returns its Base64 encoding decoded as ASCII (the Base64
alphabet is pure ASCII, so the decode step is the identity on the digits). -/
def Settings.authorization (s : Settings) : String :=
  let pair := s.username ++ ":" ++ s.password
  String.mk (b64encode (utf8Bytes pair))

/-- Spec-side formula: the HTTP Basic-Auth token is the standard Base64
encoding of the UTF-8 bytes of `"<username>:<password>"`. -/
def basicAuthToken (u p : String) : String :=
  String.mk (b64encode (utf8Bytes (u ++ ":" ++ p)))

/-- State-passing embedding of reading the `carrier_name` property: the
source body contains no assignment, so the settings state is returned
untouched alongside the computed value. -/
def Settings.carrier_name_access (s : Settings) : String × Settings :=
  (s.carrier_name, s)

/-- State-passing embedding of reading the `server_url` property (the source
body contains no assignment). -/
def Settings.server_url_access (s : Settings) : String × Settings :=
  (s.server_url, s)

/-- State-passing embedding of reading the `authorization` property (the
source body contains no assignment). -/
def Settings.authorization_access (s : Settings) : String × Settings :=
  (s.authorization, s)

end Dicom

namespace Fedex

/-- Value of a `setuptools.find_namespace_packages(exclude=...)` call: all
namespace packages except those matching the exclusion patterns. -/
structure FindNamespacePackages where
  exclude : List String
deriving DecidableEq

/-- Arguments of a `setuptools.setup` call. -/
structure SetupArgs where
  name : String
  version : String
  description : String
  url : String
  author : String
  license : String
  packages : FindNamespacePackages
  install_requires : List String
  classifiers : List String
  zip_safe : Bool
deriving DecidableEq

/-- The `setup(...)` call of `extensions/fedex/setup.py`, literal for
literal. -/
def fedexSetup : SetupArgs :=
  { name := "purplship.fedex"
    version := "2020.5.0"
    description := "Multi-carrier shipping API integration with python"
    url := "https://github.com/PurplShip/purplship"
    author := "PurplShip"
    license := "LGPLv3"
    packages := { exclude := ["tests*"] }
    install_requires := ["purplship", "py-fedex"]
    classifiers :=
      ["Programming Language :: Python :: 3",
       "License :: OSI Approved :: GNU Lesser General Public License v3 (LGPLv3)",
       "Operating System :: OS Independent"]
    zip_safe := false }

end Fedex

namespace Orders

/-- Error raised by the authorization gate. -/
inductive AuthError where
  | unauthorized
deriving DecidableEq

/-- Request/execution context: carries the authenticated identity, when one
is present. -/
structure Context where
  user : Option String
deriving DecidableEq

/-- Resolver info object; its `context` field is the calling context. -/
structure Info where
  context : Context
deriving DecidableEq

/-- An order record, modelled as its named field values (the fragment does
not define the `Order` schema beyond filterable fields). -/
structure Order where
  fields : List (String × String)
deriving DecidableEq

/-- Modelled from the spec: `purplship.server.graph.utils.login_required` is
not under `src/`; per the spec it inspects the calling context for an
authenticated identity before executing the wrapped resolver; if absent the
call fails with an Unauthorized error and the wrapped body never executes; if
present the wrapped body executes with the context passed through
unchanged. -/
def login_required {α : Type} (resolver : Info → α) (info : Info) :
    Except AuthError α :=
  match info.context.user with
  | none => Except.error AuthError.unauthorized
  | some _ => Except.ok (resolver info)

/-- Django-style filter match: an order satisfies the keyword arguments when
each named field holds the demanded value. -/
def matchesFilters (o : Order) (kwargs : List (String × String)) : Bool :=
  kwargs.all fun kv => o.fields.lookup kv.1 == some kv.2

/-- Source: `Query.resolve_order` returns
`models.Order.access_by(info.context).filter(**kwargs).first()` behind the
`login_required` gate. The data layer `Order.access_by` is external to the
fragment and is taken as a parameter giving the orders visible to a
context. -/
def resolve_order (access_by : Context → List Order) (info : Info)
    (kwargs : List (String × String)) : Except AuthError (Option Order) :=
  login_required
    (fun i => ((access_by i.context).filter fun o => matchesFilters o kwargs).head?)
    info

/-- Source: `Query.resolve_orders` returns
`models.Order.access_by(info.context)` behind the `login_required` gate; the
keyword arguments are accepted but unused. -/
def resolve_orders (access_by : Context → List Order) (info : Info)
    (kwargs : List (String × String)) : Except AuthError (List Order) :=
  login_required (fun i => access_by i.context) info

end Orders

end Karrio

namespace Karrio

namespace Dicom

/-- Claim C7: `carrier_name` returns exactly the constant string "dicom"
regardless of the values of `username`, `password`, `billing_account`, `id`
and `test`, with no side effects and no failure mode. -/
theorem carrier_name_constant (u p : String) (b i : Option String) (t : Bool) :
    (Settings.mk u p b i t).carrier_name = "dicom" := rfl

/-- Claim C5: `server_url` equals the sandbox gateway exactly when `test` is
true and the production gateway exactly when `test` is false, and it is a
pure function of `test` alone. -/
theorem server_url_selects_endpoint (s : Settings) :
    (s.test = true → s.server_url = "https://ct.soa-gw.canadapost.ca")
      ∧ (s.test = false → s.server_url = "https://soa-gw.canadapost.ca")
      ∧ ∀ s' : Settings, s'.test = s.test → s'.server_url = s.server_url := by
  refine ⟨fun h => ?_, fun h => ?_, fun s' h => ?_⟩ <;>
    simp [Settings.server_url, h]

/-- Witness for C5 at concrete settings objects. -/
theorem server_url_selects_endpoint_instance :
    (Settings.mk "u" "p" none none true).server_url = "https://ct.soa-gw.canadapost.ca"
      ∧ (Settings.mk "u" "p" none none false).server_url = "https://soa-gw.canadapost.ca" :=
  ⟨(server_url_selects_endpoint (Settings.mk "u" "p" none none true)).1 rfl,
   (server_url_selects_endpoint (Settings.mk "u" "p" none none false)).2.1 rfl⟩

/-- Claim C4: `authorization` equals the standard Base64 encoding (decoded as
ASCII) of the UTF-8 bytes of "<username>:<password>"; in particular for
username "alice" and password "secret" it equals "YWxpY2U6c2VjcmV0". -/
theorem authorization_is_basic_auth (s : Settings) :
    s.authorization = basicAuthToken s.username s.password
      ∧ (Settings.mk "alice" "secret" none none false).authorization
          = "YWxpY2U6c2VjcmV0" :=
  ⟨rfl, by decide⟩

/-- Claim C8: accessing any derived field (`carrier_name`, `server_url`,
`authorization`) leaves every stored field of the settings unchanged: no
operation mutates the settings state after construction. -/
theorem accessors_preserve_state (s : Settings) :
    s.carrier_name_access.2 = s
      ∧ s.server_url_access.2 = s
      ∧ s.authorization_access.2 = s
      ∧ s.authorization_access.2.username = s.username
      ∧ s.authorization_access.2.password = s.password
      ∧ s.authorization_access.2.billing_account = s.billing_account
      ∧ s.authorization_access.2.id = s.id
      ∧ s.authorization_access.2.test = s.test :=
  ⟨rfl, rfl, rfl, rfl, rfl, rfl, rfl, rfl⟩

theorem char_toNat_lt (c : Char) : c.toNat < 1114112 := by
  rcases c.valid with h | h
  · exact Nat.lt_trans h (by norm_num)
  · exact h.2

theorem b64Char_injOn :
    ∀ m : Nat, m < 64 → ∀ n : Nat, n < 64 → b64Char m = b64Char n → m = n := by
  decide

theorem b64Char_ne_pad : ∀ m : Nat, m < 64 → b64Char m ≠ '=' := by
  decide

theorem b64encode_bounded_inj :
    ∀ (n : Nat) (xs ys : List Nat), xs.length ≤ n →
      (∀ x ∈ xs, x < 256) → (∀ y ∈ ys, y < 256) →
      b64encode xs = b64encode ys → xs = ys := by
  intro n
  induction n with
  | zero =>
    intro xs ys hlen hx hy h
    rcases xs with _ | ⟨a, xs⟩
    · rcases ys with _ | ⟨a', _ | ⟨b', _ | ⟨c', r'⟩⟩⟩ <;> simp [b64encode] at h ⊢
    · simp at hlen
  | succ n ih =>
    intro xs ys hlen hx hy h
    rcases xs with _ | ⟨a, _ | ⟨b, _ | ⟨c, r⟩⟩⟩ <;>
      rcases ys with _ | ⟨a', _ | ⟨b', _ | ⟨c', r'⟩⟩⟩ <;>
      simp [b64encode] at h ⊢
    · have ha := hx a (by simp)
      have ha' := hy a' (by simp)
      have e1 := b64Char_injOn _ (by omega) _ (by omega) h.1
      have e2 := b64Char_injOn _ (by omega) _ (by omega) h.2
      omega
    · have hb' := hy b' (by simp)
      exact absurd h.2.2.symm (b64Char_ne_pad _ (by omega))
    · have hb' := hy b' (by simp)
      have hc' := hy c' (by simp)
      exact absurd h.2.2.1.symm (b64Char_ne_pad _ (by omega))
    · have hb := hx b (by simp)
      exact absurd h.2.2 (b64Char_ne_pad _ (by omega))
    · have ha := hx a (by simp)
      have hb := hx b (by simp)
      have ha' := hy a' (by simp)
      have hb' := hy b' (by simp)
      have e1 := b64Char_injOn _ (by omega) _ (by omega) h.1
      have e2 := b64Char_injOn _ (by omega) _ (by omega) h.2.1
      have e3 := b64Char_injOn _ (by omega) _ (by omega) h.2.2
      omega
    · have hb := hx b (by simp)
      have hc' := hy c' (by simp)
      exact absurd h.2.2.2.1.symm (b64Char_ne_pad _ (by omega))
    · have hb := hx b (by simp)
      have hc := hx c (by simp)
      exact absurd h.2.2.1 (b64Char_ne_pad _ (by omega))
    · have hb := hx b (by simp)
      have hc := hx c (by simp)
      exact absurd h.2.2.2.1 (b64Char_ne_pad _ (by omega))
    · have ha := hx a (by simp)
      have hb := hx b (by simp)
      have hc := hx c (by simp)
      have ha' := hy a' (by simp)
      have hb' := hy b' (by simp)
      have hc' := hy c' (by simp)
      obtain ⟨h1, h2, h3, h4, h5⟩ := h
      have e1 := b64Char_injOn _ (by omega) _ (by omega) h1
      have e2 := b64Char_injOn _ (by omega) _ (by omega) h2
      have e3 := b64Char_injOn _ (by omega) _ (by omega) h3
      have e4 := b64Char_injOn _ (by omega) _ (by omega) h4
      have hr : r = r' := by
        refine ih r r' (by simp at hlen; omega) ?_ ?_ h5
        · exact fun x hmem => hx x (by simp [hmem])
        · exact fun y hmem => hy y (by simp [hmem])
      refine ⟨by omega, by omega, by omega, hr⟩

theorem b64encode_inj (xs ys : List Nat) (hx : ∀ x ∈ xs, x < 256)
    (hy : ∀ y ∈ ys, y < 256) (h : b64encode xs = b64encode ys) : xs = ys :=
  b64encode_bounded_inj xs.length xs ys le_rfl hx hy h

theorem utf8EncodeNat_eq_one (n : Nat) (h : n < 128) : utf8EncodeNat n = [n] := by
  rw [utf8EncodeNat, if_pos h]

theorem utf8EncodeNat_eq_two (n : Nat) (h1 : 128 ≤ n) (h2 : n < 2048) :
    utf8EncodeNat n = [192 + n / 64, 128 + n % 64] := by
  rw [utf8EncodeNat, if_neg (by omega), if_pos h2]

theorem utf8EncodeNat_eq_three (n : Nat) (h1 : 2048 ≤ n) (h2 : n < 65536) :
    utf8EncodeNat n = [224 + n / 4096, 128 + n / 64 % 64, 128 + n % 64] := by
  rw [utf8EncodeNat, if_neg (by omega), if_neg (by omega), if_pos h2]

theorem utf8EncodeNat_eq_four (n : Nat) (h1 : 65536 ≤ n) :
    utf8EncodeNat n
      = [240 + n / 262144, 128 + n / 4096 % 64, 128 + n / 64 % 64, 128 + n % 64] := by
  rw [utf8EncodeNat, if_neg (by omega), if_neg (by omega), if_neg (by omega)]

theorem utf8EncodeNat_append_inj (m n : Nat) (hm : m < 1114112) (hn : n < 1114112)
    (r₁ r₂ : List Nat) (h : utf8EncodeNat m ++ r₁ = utf8EncodeNat n ++ r₂) :
    m = n ∧ r₁ = r₂ := by
  have cm : m < 128 ∨ 128 ≤ m ∧ m < 2048 ∨ 2048 ≤ m ∧ m < 65536 ∨ 65536 ≤ m := by
    omega
  have cn : n < 128 ∨ 128 ≤ n ∧ n < 2048 ∨ 2048 ≤ n ∧ n < 65536 ∨ 65536 ≤ n := by
    omega
  rcases cm with hm1 | ⟨hm1, hm2⟩ | ⟨hm1, hm2⟩ | hm1
  · rw [utf8EncodeNat_eq_one m hm1] at h
    rcases cn with hn1 | ⟨hn1, hn2⟩ | ⟨hn1, hn2⟩ | hn1
    · rw [utf8EncodeNat_eq_one n hn1] at h
      simp at h
      exact ⟨h.1, h.2⟩
    · rw [utf8EncodeNat_eq_two n hn1 hn2] at h
      simp at h
      exact absurd h.1 (by omega)
    · rw [utf8EncodeNat_eq_three n hn1 hn2] at h
      simp at h
      exact absurd h.1 (by omega)
    · rw [utf8EncodeNat_eq_four n hn1] at h
      simp at h
      exact absurd h.1 (by omega)
  · rw [utf8EncodeNat_eq_two m hm1 hm2] at h
    rcases cn with hn1 | ⟨hn1, hn2⟩ | ⟨hn1, hn2⟩ | hn1
    · rw [utf8EncodeNat_eq_one n hn1] at h
      simp at h
      exact absurd h.1 (by omega)
    · rw [utf8EncodeNat_eq_two n hn1 hn2] at h
      simp at h
      obtain ⟨e1, e2, hr⟩ := h
      exact ⟨by omega, hr⟩
    · rw [utf8EncodeNat_eq_three n hn1 hn2] at h
      simp at h
      exact absurd h.1 (by omega)
    · rw [utf8EncodeNat_eq_four n hn1] at h
      simp at h
      exact absurd h.1 (by omega)
  · rw [utf8EncodeNat_eq_three m hm1 hm2] at h
    rcases cn with hn1 | ⟨hn1, hn2⟩ | ⟨hn1, hn2⟩ | hn1
    · rw [utf8EncodeNat_eq_one n hn1] at h
      simp at h
      exact absurd h.1 (by omega)
    · rw [utf8EncodeNat_eq_two n hn1 hn2] at h
      simp at h
      exact absurd h.1 (by omega)
    · rw [utf8EncodeNat_eq_three n hn1 hn2] at h
      simp at h
      obtain ⟨e1, e2, e3, hr⟩ := h
      exact ⟨by omega, hr⟩
    · rw [utf8EncodeNat_eq_four n hn1] at h
      simp at h
      exact absurd h.1 (by omega)
  · rw [utf8EncodeNat_eq_four m hm1] at h
    rcases cn with hn1 | ⟨hn1, hn2⟩ | ⟨hn1, hn2⟩ | hn1
    · rw [utf8EncodeNat_eq_one n hn1] at h
      simp at h
      exact absurd h.1 (by omega)
    · rw [utf8EncodeNat_eq_two n hn1 hn2] at h
      simp at h
      exact absurd h.1 (by omega)
    · rw [utf8EncodeNat_eq_three n hn1 hn2] at h
      simp at h
      exact absurd h.1 (by omega)
    · rw [utf8EncodeNat_eq_four n hn1] at h
      simp at h
      obtain ⟨e1, e2, e3, e4, hr⟩ := h
      exact ⟨by omega, hr⟩

theorem utf8EncodeChar_append_inj (c₁ c₂ : Char) (r₁ r₂ : List Nat)
    (h : utf8EncodeChar c₁ ++ r₁ = utf8EncodeChar c₂ ++ r₂) : c₁ = c₂ ∧ r₁ = r₂ := by
  obtain ⟨he, hr⟩ :=
    utf8EncodeNat_append_inj c₁.toNat c₂.toNat (char_toNat_lt c₁) (char_toNat_lt c₂)
      r₁ r₂ h
  exact ⟨Char.ext (UInt32.toNat.inj he), hr⟩

theorem utf8EncodeChar_ne_nil (c : Char) : utf8EncodeChar c ≠ [] := by
  rw [utf8EncodeChar, utf8EncodeNat]
  split_ifs <;> simp

theorem utf8EncodeChar_bytes_lt (c : Char) : ∀ b ∈ utf8EncodeChar c, b < 256 := by
  have hv := char_toNat_lt c
  rw [utf8EncodeChar, utf8EncodeNat]
  split_ifs <;> intro b hb <;> simp at hb <;> omega

theorem utf8Encode_bytes_lt : ∀ (l : List Char), ∀ b ∈ utf8Encode l, b < 256
  | [] => by simp [utf8Encode]
  | c :: cs => by
    intro b hb
    simp only [utf8Encode, List.mem_append] at hb
    rcases hb with hb | hb
    · exact utf8EncodeChar_bytes_lt c b hb
    · exact utf8Encode_bytes_lt cs b hb

theorem utf8Encode_inj : ∀ (l₁ l₂ : List Char), utf8Encode l₁ = utf8Encode l₂ → l₁ = l₂
  | [], [], _ => rfl
  | [], c :: cs, h => by
    simp only [utf8Encode] at h
    rcases hx : utf8EncodeChar c with _ | ⟨b, bs⟩
    · exact absurd hx (utf8EncodeChar_ne_nil c)
    · rw [hx] at h
      simp at h
  | c :: cs, [], h => by
    simp only [utf8Encode] at h
    rcases hx : utf8EncodeChar c with _ | ⟨b, bs⟩
    · exact absurd hx (utf8EncodeChar_ne_nil c)
    · rw [hx] at h
      simp at h
  | c₁ :: l₁, c₂ :: l₂, h => by
    simp only [utf8Encode] at h
    obtain ⟨hc, hr⟩ := utf8EncodeChar_append_inj c₁ c₂ _ _ h
    rw [hc, utf8Encode_inj l₁ l₂ hr]

theorem encodedToken_inj (s₁ s₂ : String)
    (h : String.mk (b64encode (utf8Bytes s₁)) = String.mk (b64encode (utf8Bytes s₂))) :
    s₁ = s₂ := by
  have hd : b64encode (utf8Bytes s₁) = b64encode (utf8Bytes s₂) := congrArg String.data h
  have hb :=
    b64encode_inj _ _ (utf8Encode_bytes_lt s₁.data) (utf8Encode_bytes_lt s₂.data) hd
  exact String.ext (utf8Encode_inj _ _ hb)

theorem pair_username_inj (u₁ u₂ p : String) (h : u₁ ++ ":" ++ p = u₂ ++ ":" ++ p) :
    u₁ = u₂ := by
  have hd := congrArg String.data h
  simp only [String.data_append] at hd
  exact String.ext (List.append_cancel_right (List.append_cancel_right hd))

theorem pair_password_inj (u p₁ p₂ : String) (h : u ++ ":" ++ p₁ = u ++ ":" ++ p₂) :
    p₁ = p₂ := by
  have hd := congrArg String.data h
  simp only [String.data_append] at hd
  exact String.ext (List.append_cancel_left hd)

/-- Claim C6: `authorization` is recomputed on every access from the current
`username`/`password` fields and never cached: after changing `username` or
`password`, the next access returns the encoding derived from the new pair,
and (the changed field being different) a value different from the one
derived from the old pair. -/
theorem authorization_not_cached (s : Settings) (u' p' : String) :
    ({ s with username := u' }).authorization = basicAuthToken u' s.password
      ∧ ({ s with password := p' }).authorization = basicAuthToken s.username p'
      ∧ (u' ≠ s.username →
          ({ s with username := u' }).authorization ≠ s.authorization)
      ∧ (p' ≠ s.password →
          ({ s with password := p' }).authorization ≠ s.authorization) := by
  refine ⟨rfl, rfl, fun hu hc => ?_, fun hp hc => ?_⟩
  · exact hu (pair_username_inj _ _ _ (encodedToken_inj _ _ hc))
  · exact hp (pair_password_inj _ _ _ (encodedToken_inj _ _ hc))

/-- Witness for C6: changing the username of a concrete settings object from
"alice" to "bob" yields the token of the new pair, different from the old
token. -/
theorem authorization_not_cached_instance :
    ({ Settings.mk "alice" "secret" none none false with username := "bob" }).authorization
        = basicAuthToken "bob" "secret"
      ∧ ({ Settings.mk "alice" "secret" none none false with
            username := "bob" }).authorization
          ≠ (Settings.mk "alice" "secret" none none false).authorization :=
  ⟨(authorization_not_cached (Settings.mk "alice" "secret" none none false) "bob" "p").1,
   (authorization_not_cached (Settings.mk "alice" "secret" none none false) "bob"
      "p").2.2.1 (by decide)⟩

end Dicom

namespace Fedex

/-- Claim C10: the provider package descriptor declares exactly the literals:
name "purplship.fedex", version "2020.5.0", license LGPLv3, packages all
namespace packages excluding test packages, and runtime dependencies on the
purplship core package and the third-party fedex client library. -/
theorem setup_metadata :
    fedexSetup.name = "purplship.fedex"
      ∧ fedexSetup.version = "2020.5.0"
      ∧ fedexSetup.license = "LGPLv3"
      ∧ fedexSetup.packages = FindNamespacePackages.mk ["tests*"]
      ∧ fedexSetup.install_requires = ["purplship", "py-fedex"] :=
  ⟨rfl, rfl, rfl, rfl, rfl⟩

end Fedex

namespace Orders

/-- Claim C1: a call to `order` or `orders` whose context carries no
authenticated identity fails with an Unauthorized error and the wrapped
resolver body is never invoked (the gate's result does not depend on the
body); with an authenticated identity the wrapped body executes with the
context passed through unchanged. -/
theorem login_gate_blocks_and_passes (access_by : Context → List Order)
    (info : Info) (kwargs : List (String × String)) :
    (info.context.user = none →
        resolve_order access_by info kwargs = Except.error AuthError.unauthorized
          ∧ resolve_orders access_by info kwargs = Except.error AuthError.unauthorized
          ∧ ∀ (f g : Info → Option Order), login_required f info = login_required g info)
      ∧ ∀ u : String, info.context.user = some u →
          (∀ f : Info → Option Order, login_required f info = Except.ok (f info))
            ∧ ∀ f : Info → List Order, login_required f info = Except.ok (f info) := by
  constructor
  · intro h
    refine ⟨?_, ?_, fun f g => ?_⟩ <;>
      simp [resolve_order, resolve_orders, login_required, h]
  · intro u h
    refine ⟨fun f => ?_, fun f => ?_⟩ <;> simp [login_required, h]

/-- Witness for C1: the gate blocks a concrete unauthenticated call and
passes a concrete authenticated body through. -/
theorem login_gate_blocks_and_passes_instance :
    resolve_order (fun _ => []) (Info.mk (Context.mk none)) []
        = Except.error AuthError.unauthorized
      ∧ login_required (fun _ => ([] : List Order)) (Info.mk (Context.mk (some "u")))
          = Except.ok [] :=
  ⟨((login_gate_blocks_and_passes (fun _ => []) (Info.mk (Context.mk none)) []).1 rfl).1,
   ((login_gate_blocks_and_passes (fun _ => []) (Info.mk (Context.mk (some "u"))) []).2
      "u" rfl).2 (fun _ => [])⟩

/-- Claim C2: with an authenticated context, `order` returns the first
element of the orders visible to the context restricted by all supplied
filter arguments; no visible match yields an absent value rather than an
error, and a unique visible match is returned itself. -/
theorem resolve_order_first_match (access_by : Context → List Order)
    (info : Info) (kwargs : List (String × String)) (u : String)
    (h : info.context.user = some u) :
    resolve_order access_by info kwargs
        = Except.ok (((access_by info.context).filter fun o =>
            matchesFilters o kwargs).head?)
      ∧ (((access_by info.context).filter fun o => matchesFilters o kwargs) = [] →
          resolve_order access_by info kwargs = Except.ok none)
      ∧ ∀ o : Order,
          ((access_by info.context).filter fun o => matchesFilters o kwargs) = [o] →
            resolve_order access_by info kwargs = Except.ok (some o) := by
  refine ⟨?_, fun hnone => ?_, fun o hone => ?_⟩
  · simp [resolve_order, login_required, h]
  · simp [resolve_order, login_required, h, hnone]
  · simp [resolve_order, login_required, h, hone]

/-- Witness for C2: a concrete authenticated lookup that matches exactly one
visible order returns that order, and one that matches nothing returns an
absent value. -/
theorem resolve_order_first_match_instance :
    resolve_order
        (fun _ => [Order.mk [("id", "1")], Order.mk [("id", "2")]])
        (Info.mk (Context.mk (some "u"))) [("id", "2")]
        = Except.ok (some (Order.mk [("id", "2")]))
      ∧ resolve_order
          (fun _ => [Order.mk [("id", "1")], Order.mk [("id", "2")]])
          (Info.mk (Context.mk (some "u"))) [("id", "3")]
          = Except.ok none :=
  ⟨(resolve_order_first_match
      (fun _ => [Order.mk [("id", "1")], Order.mk [("id", "2")]])
      (Info.mk (Context.mk (some "u"))) [("id", "2")] "u" rfl).2.2
      (Order.mk [("id", "2")]) (by decide),
   (resolve_order_first_match
      (fun _ => [Order.mk [("id", "1")], Order.mk [("id", "2")]])
      (Info.mk (Context.mk (some "u"))) [("id", "3")] "u" rfl).2.1 (by decide)⟩

/-- Claim C3: with an authenticated context, `orders` returns the full set of
orders visible to the calling context; when no records are visible it returns
an empty ordered sequence, not an absent value and not an error. -/
theorem resolve_orders_scope (access_by : Context → List Order)
    (info : Info) (kwargs : List (String × String)) (u : String)
    (h : info.context.user = some u) :
    resolve_orders access_by info kwargs = Except.ok (access_by info.context)
      ∧ (access_by info.context = [] →
          resolve_orders access_by info kwargs = Except.ok []) := by
  refine ⟨?_, fun hempty => ?_⟩
  · simp [resolve_orders, login_required, h]
  · simp [resolve_orders, login_required, h, hempty]

/-- Witness for C3: a concrete authenticated `orders` call over an empty
visible set returns the empty sequence. -/
theorem resolve_orders_scope_instance :
    resolve_orders (fun _ => []) (Info.mk (Context.mk (some "u"))) []
        = Except.ok ([] : List Order) :=
  (resolve_orders_scope (fun _ => []) (Info.mk (Context.mk (some "u"))) [] "u" rfl).2 rfl

/-- Claim C9: the `orders` resolver's result is independent of the filter
keyword arguments: two invocations with the same context and arbitrarily
different keyword arguments return the same value, namely the orders visible
via `access_by`; any filtering of the connection happens outside the
resolver. -/
theorem resolve_orders_ignores_filters (access_by : Context → List Order)
    (info : Info) (kw kw' : List (String × String)) :
    resolve_orders access_by info kw = resolve_orders access_by info kw'
      ∧ ∀ u : String, info.context.user = some u →
          resolve_orders access_by info kw = Except.ok (access_by info.context) := by
  refine ⟨rfl, fun u h => ?_⟩
  simp [resolve_orders, login_required, h]

/-- Witness for C9: two concrete calls with different filter arguments agree,
and the authenticated one returns the visible orders. -/
theorem resolve_orders_ignores_filters_instance :
    resolve_orders (fun _ => [Order.mk [("id", "1")]])
        (Info.mk (Context.mk (some "u"))) [("id", "1")]
        = Except.ok [Order.mk [("id", "1")]] :=
  (resolve_orders_ignores_filters (fun _ => [Order.mk [("id", "1")]])
      (Info.mk (Context.mk (some "u"))) [("id", "1")] []).2 "u" rfl

end Orders

end Karrio
